import Mathlib

/-!
Verification of the Peer2PeerConnector signaling server (Go) against its
specification.  The development shallowly embeds the server package:
JSON frames become association lists of string keys and values, the Go
maps clients and rooms become a ServerState record, each message handler
becomes a pure function from state and inbound frame to the next state
together with the list of frames it writes out, and a runtime panic
(a nil pointer dereference reached by the Go code) is modelled as the
value none of an Option result.  Nondeterministic environment inputs
(shortuuid generation) are passed as explicit parameters; timestamps and
message ids of response frames are environment outputs carried by every
frame alike and are omitted from the frame model.
-/

namespace P2P

/-- JSON values as decoded by encoding/json into interface values.
Objects are association lists in key order. -/
inductive JValue where
  | str : String → JValue
  | num : Int → JValue
  | boolean : Bool → JValue
  | null : JValue
  | arr : List JValue → JValue
  | obj : List (String × JValue) → JValue

/-- A decoded JSON object, the Go type map of string to interface. -/
abbrev JObj := List (String × JValue)

/-- Go map read m[k]: first binding of the key, if any. -/
def objGet : JObj → String → Option JValue
  | [], _ => none
  | (k, v) :: rest, key => if k = key then some v else objGet rest key

/-- Go builtin delete(m, k): drop every binding of the key. -/
def objErase : JObj → String → JObj
  | [], _ => []
  | (k, v) :: rest, key =>
      if k = key then objErase rest key else (k, v) :: objErase rest key

/-- Replace every binding of a key that is known to be present. -/
def objReplace : JObj → String → JValue → JObj
  | [], _, _ => []
  | (k, w) :: rest, key, v =>
      if k = key then (key, v) :: objReplace rest key v
      else (k, w) :: objReplace rest key v

/-- Go map write m[k] = v: overwrite the binding when the key is
present, otherwise add a new binding. -/
def objInsert (o : JObj) (key : String) (v : JValue) : JObj :=
  if (objGet o key).isNone then o ++ [(key, v)] else objReplace o key v

/-- internal/room: the Room struct. -/
structure Room where
  id : String
  name : String
  clients : List String
  creator : String

/-- internal/room NewRoom: the creator is the sole initial member. -/
def NewRoom (id name creator : String) : Room :=
  { id := id, name := name, creator := creator, clients := [creator] }

/-- Room.AddClient: append the client id to the member slice. -/
def Room.AddClient (room : Room) (clientId : String) : Room :=
  { room with clients := room.clients ++ [clientId] }

/-- slices.Index followed by slices.Delete: remove the first
occurrence of an element, no change when absent. -/
def removeFirstStr : List String → String → List String
  | [], _ => []
  | x :: xs, c => if x = c then xs else x :: removeFirstStr xs c

/-- Room.RemoveClient: delete the first occurrence of the client id
from the member slice, if present. -/
def Room.RemoveClient (room : Room) (clientId : String) : Room :=
  { room with clients := removeFirstStr room.clients clientId }

/-- internal/response: a server to client frame. The timestamp and the
generated message id are environment outputs present on every frame and
are not part of the model. -/
structure RMessage where
  type : String
  event : String
  data : JObj

/-- responsemessage.NewMessage. -/
def NewMessage (messageType event : String) (data : JObj) : RMessage :=
  { type := messageType, event := event, data := data }

/-- responsemessage.ErrorMessage. -/
def ErrorMessage (title : String) (data : JObj) : RMessage :=
  NewMessage "error" title data

/-- responsemessage.InfoMessage. -/
def InfoMessage (event : String) (data : JObj) : RMessage :=
  NewMessage "info" event data

/-- responsemessage.UpdateMessage. -/
def UpdateMessage (event : String) (data : JObj) : RMessage :=
  NewMessage "update" event data

/-- A frame written to some channel: either a response message built by
the responsemessage package, or a raw JSON object relayed verbatim. -/
inductive Out where
  | resp : RMessage → Out
  | raw : JObj → Out

/-- One WriteJSON effect: the id of the client whose channel is written,
and the frame written. -/
abbrev Write := String × Out

/-- The shared state of the server package: the clients map (the channel
handle carries no state, so a client is just its id) and the rooms map
as an association list from room id to Room. -/
structure ServerState where
  clients : List String
  rooms : List (String × Room)

/-- Go map read rooms[id]. -/
def getRoom : List (String × Room) → String → Option Room
  | [], _ => none
  | (k, r) :: rest, id => if k = id then some r else getRoom rest id

/-- In-place mutation of the Room a map entry points to: replace the
value at the key. -/
def setRoom : List (String × Room) → String → Room → List (String × Room)
  | [], _, _ => []
  | (k, r) :: rest, id, r' =>
      if k = id then (k, r') :: setRoom rest id r'
      else (k, r) :: setRoom rest id r'

/-- Go builtin delete(rooms, id). -/
def eraseRoom : List (String × Room) → String → List (String × Room)
  | [], _ => []
  | (k, r) :: rest, id =>
      if k = id then eraseRoom rest id else (k, r) :: eraseRoom rest id

/-- Remove a client id from the clients registry list. -/
def eraseClient : List String → String → List String
  | [], _ => []
  | c :: rest, id => if c = id then eraseClient rest id else c :: eraseClient rest id

/-- server.removeClient: delete the entry from the clients map
(a no-op when the id is absent). -/
def removeClient (st : ServerState) (clientID : String) : ServerState :=
  { st with clients := eraseClient st.clients clientID }

/-- The member ids of a room whose clients are still registered, in
member order: the loop of notifyUpdateIntheRoom skips absent ids. -/
def membersToNotify (reg : List String) : List String → List String
  | [] => []
  | c :: rest =>
      if c ∈ reg then c :: membersToNotify reg rest else membersToNotify reg rest

/-- The fan-out writes of notifyUpdateIntheRoom for a room already in
hand: one update frame per still-registered member. -/
def notifyRoomWrites (reg : List String) (room : Room) (message : String) : List Write :=
  (membersToNotify reg room.clients).map fun c =>
    (c, Out.resp (UpdateMessage message
      [("clients", JValue.arr (room.clients.map JValue.str)),
       ("room", JValue.str room.id),
       ("name", JValue.str room.name)]))

/-- server.notifyUpdateIntheRoom.  When the room id is absent the Go
code logs but has no early return, and the following range over the nil
room pointer is a nil dereference panic, modelled as none. -/
def notifyUpdateIntheRoom (st : ServerState) (roomId : String) (message : String) :
    Option (List Write) :=
  match getRoom st.rooms roomId with
  | none => none
  | some room => some (notifyRoomWrites st.clients room message)

/-- server.relayMessageToTarget, for frames of type offer, answer,
candidate or message: validates the to and type fields and the target
client, then relays the frame with to deleted and from set to the
sender id. -/
def relayMessageToTarget (st : ServerState) (sender : String) (msg : JObj) : List Write :=
  match objGet msg "to" with
  | some (JValue.str targetID) =>
    match objGet msg "type" with
    | some (JValue.str msgtype) =>
      if targetID ∈ st.clients then
        if msgtype = "offer" ∨ msgtype = "answer" ∨ msgtype = "candidate" ∨ msgtype = "message" then
          [(targetID, Out.raw (objInsert (objErase msg "to") "from" (JValue.str sender)))]
        else []
      else
        [(sender, Out.resp (ErrorMessage "client missing"
          [("message", JValue.str ("Client with given " ++ targetID ++ " not found"))]))]
    | _ =>
      [(sender, Out.resp (ErrorMessage "missing fields"
        [("message", JValue.str "'type' field not found")]))]
  | _ =>
    [(sender, Out.resp (ErrorMessage "missing fields"
      [("message", JValue.str "'to' field not found")]))]

/-- server.handleConnectMessage (the variant with field validation).
A missing or non-string to field only logs and returns: no frame is
written.  All later validation failures write an error frame back to
the sender; a valid request writes one offer frame to the target. -/
def handleConnectMessage (st : ServerState) (sender : String) (message : JObj) : List Write :=
  match objGet message "to" with
  | some (JValue.str targetID) =>
    if targetID ∈ st.clients then
      match objGet message "data" with
      | some (JValue.obj data) =>
        match objGet data "sdp" with
        | some sdp =>
          match objGet data "candidate" with
          | some candidate =>
            [(targetID, Out.resp (InfoMessage "offer"
              [("type", JValue.str "offer"),
               ("from", JValue.str sender),
               ("data", JValue.obj [("sdp", sdp), ("candidate", candidate)])]))]
          | none =>
            [(sender, Out.resp (ErrorMessage "Missing fields"
              [("message", JValue.str "'data''sdp' field is missing in the request.")]))]
        | none =>
          [(sender, Out.resp (ErrorMessage "Missing fields"
            [("message", JValue.str "'data''sdp' field is missing in the request.")]))]
      | _ =>
        [(sender, Out.resp (ErrorMessage "Missing fields"
          [("message", JValue.str "'data' field is missing or is not object in the request.")]))]
    else
      [(sender, Out.resp (ErrorMessage "client missing"
        [("message", JValue.str ("Client with given " ++ targetID ++ " not found"))]))]
  | _ => []

/-- The room id used by handleCreateRoomMessage: the string data.room
field when present, otherwise the freshly generated short uuid. -/
def roomIdOfData (data : JObj) (genId : String) : String :=
  match objGet data "room" with
  | some (JValue.str r) => r
  | _ => genId

/-- The optional room name read by handleCreateRoomMessage. -/
def roomNameOfData (data : JObj) : String :=
  match objGet data "name" with
  | some (JValue.str n) => n
  | _ => ""

/-- server.handleCreateRoomMessage.  genId stands for the shortuuid the
handler would generate when data.room is absent. -/
def handleCreateRoomMessage (st : ServerState) (sender : String) (msg : JObj)
    (genId : String) : ServerState × List Write :=
  match objGet msg "data" with
  | some (JValue.obj data) =>
    let roomId := roomIdOfData data genId
    let roomName := roomNameOfData data
    match getRoom st.rooms roomId with
    | some _ =>
      (st, [(sender, Out.resp (ErrorMessage " duplicate room"
        [("message", JValue.str (roomId ++ " already exist"))]))])
    | none =>
      let myRoom := NewRoom roomId roomName sender
      ({ st with rooms := (roomId, myRoom) :: st.rooms },
       [(sender, Out.resp (InfoMessage "room_created"
         [("clients", JValue.arr (myRoom.clients.map JValue.str)),
          ("room", JValue.str roomId),
          ("name", JValue.str myRoom.name)]))])
  | _ =>
    (st, [(sender, Out.resp (ErrorMessage "Missing fields"
      [("message", JValue.str "'data' field is missing or is not object in the request.")]))])

/-- server.checkRoomInJSON: validates that data is an object, that
data.room is a string, and that the named room exists; on failure the
caller writes the returned error frame to the requester. -/
def checkRoomInJSON (st : ServerState) (msg : JObj) : Except RMessage String :=
  match objGet msg "data" with
  | some (JValue.obj data) =>
    match objGet data "room" with
    | some (JValue.str roomId) =>
      match getRoom st.rooms roomId with
      | some _ => Except.ok roomId
      | none => Except.error (ErrorMessage "Invalid Room"
          [("message", JValue.str ("Room with Id " ++ roomId ++ " does not exist."))])
    | _ => Except.error (ErrorMessage "Missing fields"
        [("message", JValue.str "'room' field is missing in the request.")])
  | _ => Except.error (ErrorMessage "Missing fields"
      [("message", JValue.str "'data' field is missing or is not object in the request.")])

/-- server.handleJoinRoomMessage.  Faithful to the source, including
its membership test: the code asks whether the room id, not the sender
id, occurs in the member slice before appending the sender. -/
def handleJoinRoomMessage (st : ServerState) (sender : String) (msg : JObj) :
    Option (ServerState × List Write) :=
  match checkRoomInJSON st msg with
  | Except.error e => some (st, [(sender, Out.resp e)])
  | Except.ok roomId =>
    match getRoom st.rooms roomId with
    | none => none
    | some myRoom =>
      if roomId ∈ myRoom.clients then
        some (st, [(sender, Out.resp (ErrorMessage "Already exists"
          [("message", JValue.str "Client already exists in the room.")]))])
      else
        let st' := { st with rooms := setRoom st.rooms roomId (myRoom.AddClient sender) }
        (notifyUpdateIntheRoom st' roomId "client_added").map fun ws => (st', ws)

/-- server.removeClientFromRoom.  More than two variadic room ids is an
error return; exactly one room id removes the client from that room and
fans out client_removed (a nil dereference panic, modelled none, when
the room id is absent); no room id searches every room, removing the
client and deleting rooms left empty; finally the client itself is
removed when deleteClient is set.  The cleanup loop body, one room at a
time, in map order modelled as list order. -/
def cleanupRooms (reg : List String) (clientId : String) :
    List (String × Room) → List (String × Room) × List Write
  | [] => ([], [])
  | (rid, r) :: rest =>
    if clientId ∈ r.clients then
      let ws := notifyRoomWrites reg r "client_removed"
      let r' := r.RemoveClient clientId
      let next := cleanupRooms reg clientId rest
      if r'.clients = [] then (next.1, ws ++ next.2)
      else ((rid, r') :: next.1, ws ++ next.2)
    else
      let next := cleanupRooms reg clientId rest
      ((rid, r) :: next.1, next.2)

/-- server.removeClientFromRoom, see cleanupRooms for the search loop.
The result carries the next state, the writes, and the Go return pair
of bool and error; none models the panic on an absent room id. -/
def removeClientFromRoom (st : ServerState) (clientId : String) (deleteClient : Bool)
    (roomIds : List String) : Option (ServerState × List Write × Bool × Option String) :=
  if roomIds.length > 2 then
    some (st, [], false, some "invalid args passed, second argument should be roomId.")
  else
    let afterOne : Option (ServerState × List Write) :=
      match roomIds with
      | [rid] =>
        match getRoom st.rooms rid with
        | none => none
        | some room =>
          let st1 := { st with rooms := setRoom st.rooms rid (room.RemoveClient clientId) }
          (notifyUpdateIntheRoom st1 rid "client_removed").map fun ws => (st1, ws)
      | _ => some (st, [])
    match afterOne with
    | none => none
    | some (st1, ws1) =>
      let step2 : ServerState × List Write :=
        if roomIds.length = 0 ∧ st1.rooms.length > 0 then
          let res := cleanupRooms st1.clients clientId st1.rooms
          ({ st1 with rooms := res.1 }, res.2)
        else (st1, [])
      let st3 := if deleteClient then removeClient step2.1 clientId else step2.1
      some (st3, ws1 ++ step2.2, true, none)

/-- server.handleLeaveRoomMessage.  After validation, a member sender
is removed through removeClientFromRoom and told room_left, a
non-member sender gets an error frame; in both branches the room, a
shared pointer re-read after the removal, is deleted when its member
slice is empty. -/
def handleLeaveRoomMessage (st : ServerState) (sender : String) (msg : JObj) :
    Option (ServerState × List Write) :=
  match checkRoomInJSON st msg with
  | Except.error e => some (st, [(sender, Out.resp e)])
  | Except.ok roomId =>
    match getRoom st.rooms roomId with
    | none => none
    | some room =>
      if sender ∈ room.clients then
        match removeClientFromRoom st sender false [roomId] with
        | none => none
        | some (st1, ws1, _) =>
          let ws := ws1 ++ [(sender, Out.resp (InfoMessage "room_left"
            [("room", JValue.str roomId)]))]
          match getRoom st1.rooms roomId with
          | none => none
          | some room' =>
            if room'.clients = [] then
              some ({ st1 with rooms := eraseRoom st1.rooms roomId }, ws)
            else some (st1, ws)
      else
        let ws := [(sender, Out.resp (ErrorMessage "Client not found"
          [("message", JValue.str "Client does not exists in the room.")]))]
        if room.clients = [] then
          some ({ st with rooms := eraseRoom st.rooms roomId }, ws)
        else some (st, ws)

/-- server.handleEndRoomMessage: after validation, only a sender equal
to the recorded creator deletes the room (with a room_deleted fan-out
first); any other sender gets an unauthorised error frame and nothing
changes. -/
def handleEndRoomMessage (st : ServerState) (sender : String) (msg : JObj) :
    Option (ServerState × List Write) :=
  match checkRoomInJSON st msg with
  | Except.error e => some (st, [(sender, Out.resp e)])
  | Except.ok roomId =>
    match getRoom st.rooms roomId with
    | none => none
    | some room =>
      if room.creator ≠ sender then
        some (st, [(sender, Out.resp (ErrorMessage "unauthorised"
          [("message", JValue.str "You need to be creator of room to delete it.")]))])
      else
        (notifyUpdateIntheRoom st roomId "room_deleted").map fun ws =>
          ({ st with rooms := eraseRoom st.rooms roomId }, ws)

/-- One observable mutation of the shared server state: a websocket
upgrade registering a fresh client id, one of the room message handlers
run to completion, or the disconnect cleanup of the deferred close
handler (removeClientFromRoom with no room id and deleteClient true). -/
inductive Step : ServerState → ServerState → Prop
  | register (st : ServerState) (c : String) (h : c ∉ st.clients) :
      Step st { st with clients := c :: st.clients }
  | createRoom (st : ServerState) (sender : String) (msg : JObj) (genId : String)
      (st' : ServerState) (ws : List Write)
      (h : handleCreateRoomMessage st sender msg genId = (st', ws)) : Step st st'
  | joinRoom (st : ServerState) (sender : String) (msg : JObj)
      (st' : ServerState) (ws : List Write)
      (h : handleJoinRoomMessage st sender msg = some (st', ws)) : Step st st'
  | leaveRoom (st : ServerState) (sender : String) (msg : JObj)
      (st' : ServerState) (ws : List Write)
      (h : handleLeaveRoomMessage st sender msg = some (st', ws)) : Step st st'
  | endRoom (st : ServerState) (sender : String) (msg : JObj)
      (st' : ServerState) (ws : List Write)
      (h : handleEndRoomMessage st sender msg = some (st', ws)) : Step st st'
  | disconnect (st : ServerState) (c : String) (st' : ServerState) (ws : List Write)
      (b : Bool) (e : Option String)
      (h : removeClientFromRoom st c true [] = some (st', ws, b, e)) : Step st st'

/-- States reachable from the empty registries by the steps above. -/
inductive Reachable : ServerState → Prop
  | init : Reachable { clients := [], rooms := [] }
  | step {st st' : ServerState} : Reachable st → Step st st' → Reachable st'

/-- No entry of the rooms registry has an empty member slice. -/
def NoEmptyRooms (st : ServerState) : Prop :=
  ∀ p ∈ st.rooms, (Prod.snd p).clients ≠ []

lemma getRoom_mem {rs : List (String × Room)} {id : String} {r : Room}
    (h : getRoom rs id = some r) : (id, r) ∈ rs := by
  induction rs with
  | nil => simp [getRoom] at h
  | cons p rest ih =>
    obtain ⟨k, v⟩ := p
    by_cases hk : k = id
    · subst hk
      simp [getRoom] at h
      subst h
      exact List.mem_cons_self _ _
    · simp [getRoom, hk] at h
      exact List.mem_cons_of_mem _ (ih h)

lemma mem_setRoom {rs : List (String × Room)} {id : String} {r' : Room}
    {p : String × Room} (h : p ∈ setRoom rs id r') :
    p = (id, r') ∨ (p ∈ rs ∧ p.1 ≠ id) := by
  induction rs with
  | nil => simp [setRoom] at h
  | cons q rest ih =>
    obtain ⟨k, v⟩ := q
    by_cases hk : k = id
    · subst hk
      simp [setRoom] at h
      rcases h with h | h
      · exact Or.inl h
      · rcases ih h with h' | h'
        · exact Or.inl h'
        · exact Or.inr ⟨List.mem_cons_of_mem _ h'.1, h'.2⟩
    · simp [setRoom, hk] at h
      rcases h with h | h
      · subst h; exact Or.inr ⟨List.mem_cons_self _ _, hk⟩
      · rcases ih h with h' | h'
        · exact Or.inl h'
        · exact Or.inr ⟨List.mem_cons_of_mem _ h'.1, h'.2⟩

lemma mem_eraseRoom {rs : List (String × Room)} {id : String}
    {p : String × Room} (h : p ∈ eraseRoom rs id) : p ∈ rs ∧ p.1 ≠ id := by
  induction rs with
  | nil => simp [eraseRoom] at h
  | cons q rest ih =>
    obtain ⟨k, v⟩ := q
    by_cases hk : k = id
    · subst hk
      simp [eraseRoom] at h
      exact ⟨List.mem_cons_of_mem _ (ih h).1, (ih h).2⟩
    · simp [eraseRoom, hk] at h
      rcases h with h | h
      · subst h; exact ⟨List.mem_cons_self _ _, hk⟩
      · exact ⟨List.mem_cons_of_mem _ (ih h).1, (ih h).2⟩

lemma getRoom_setRoom (rs : List (String × Room)) (id : String) (r' : Room) (j : String) :
    getRoom (setRoom rs id r') j =
      if j = id then (getRoom rs id).map (fun _ => r') else getRoom rs j := by
  induction rs with
  | nil =>
    simp only [setRoom, getRoom]
    split <;> rfl
  | cons q rest ih =>
    obtain ⟨k, v⟩ := q
    by_cases hk : k = id
    · subst hk
      by_cases hj : j = k
      · subst hj
        simp [setRoom, getRoom, ih]
      · simp [setRoom, getRoom, hj, Ne.symm hj, ih]
    · by_cases hj : j = k
      · subst hj
        simp [setRoom, getRoom, hk, Ne.symm hk, ih]
      · simp [setRoom, getRoom, hk, hj, Ne.symm hj, ih]

lemma getRoom_eraseRoom (rs : List (String × Room)) (id j : String) :
    getRoom (eraseRoom rs id) j = if j = id then none else getRoom rs j := by
  induction rs with
  | nil =>
    simp only [eraseRoom, getRoom]
    split <;> rfl
  | cons q rest ih =>
    obtain ⟨k, v⟩ := q
    by_cases hk : k = id
    · subst hk
      by_cases hj : j = k
      · subst hj; simp [eraseRoom, getRoom, ih]
      · simp [eraseRoom, getRoom, hj, Ne.symm hj, ih]
    · by_cases hj : j = k
      · subst hj
        simp [eraseRoom, getRoom, hk, ih, Ne.symm hk]
      · simp [eraseRoom, getRoom, hk, hj, Ne.symm hj, ih]

lemma cleanupRooms_nonempty (reg : List String) (c : String)
    (rs : List (String × Room)) (h : ∀ p ∈ rs, (Prod.snd p).clients ≠ []) :
    ∀ p ∈ (cleanupRooms reg c rs).1, (Prod.snd p).clients ≠ [] := by
  induction rs with
  | nil => simp [cleanupRooms]
  | cons q rest ih =>
    obtain ⟨rid, r⟩ := q
    have hrest : ∀ p ∈ rest, (Prod.snd p).clients ≠ [] := by
      intro p hp; exact h p (List.mem_cons_of_mem _ hp)
    by_cases hc : c ∈ r.clients
    · by_cases he : (r.RemoveClient c).clients = []
      · simp only [cleanupRooms, if_pos hc, if_pos he]
        exact ih hrest
      · simp only [cleanupRooms, if_pos hc, if_neg he]
        intro p hp
        rcases List.mem_cons.mp hp with hp | hp
        · subst hp; exact he
        · exact ih hrest p hp
    · simp only [cleanupRooms, if_neg hc]
      intro p hp
      rcases List.mem_cons.mp hp with hp | hp
      · subst hp; exact h _ (List.mem_cons_self _ _)
      · exact ih hrest p hp

lemma create_preserves {st st' : ServerState} {sender : String} {msg : JObj}
    {genId : String} {ws : List Write} (hinv : NoEmptyRooms st)
    (h : handleCreateRoomMessage st sender msg genId = (st', ws)) : NoEmptyRooms st' := by
  unfold handleCreateRoomMessage at h
  split at h
  · dsimp only at h
    split at h
    · injection h with h1 h2
      subst h1
      exact hinv
    · injection h with h1 h2
      subst h1
      intro p hp
      rcases List.mem_cons.mp hp with hp | hp
      · subst hp; simp [NewRoom]
      · exact hinv p hp
  · injection h with h1 h2
    subst h1
    exact hinv

lemma join_preserves {st st' : ServerState} {sender : String} {msg : JObj}
    {ws : List Write} (hinv : NoEmptyRooms st)
    (h : handleJoinRoomMessage st sender msg = some (st', ws)) : NoEmptyRooms st' := by
  unfold handleJoinRoomMessage at h
  split at h
  · simp only [Option.some.injEq, Prod.mk.injEq] at h
    obtain ⟨rfl, rfl⟩ := h
    exact hinv
  · split at h
    · simp at h
    · split at h
      · simp only [Option.some.injEq, Prod.mk.injEq] at h
        obtain ⟨rfl, rfl⟩ := h
        exact hinv
      · dsimp only at h
        rw [Option.map_eq_some'] at h
        obtain ⟨ws0, hn, h2⟩ := h
        injection h2 with h1 h2
        subst h1
        rename_i myRoom hroom hnotin
        intro p hp
        rcases mem_setRoom hp with hp | hp
        · subst hp
          simp [Room.AddClient]
        · exact hinv p hp.1

lemma end_preserves {st st' : ServerState} {sender : String} {msg : JObj}
    {ws : List Write} (hinv : NoEmptyRooms st)
    (h : handleEndRoomMessage st sender msg = some (st', ws)) : NoEmptyRooms st' := by
  unfold handleEndRoomMessage at h
  split at h
  · simp only [Option.some.injEq, Prod.mk.injEq] at h
    obtain ⟨rfl, rfl⟩ := h
    exact hinv
  · split at h
    · simp at h
    · split at h
      · simp only [Option.some.injEq, Prod.mk.injEq] at h
        obtain ⟨rfl, rfl⟩ := h
        exact hinv
      · rw [Option.map_eq_some'] at h
        obtain ⟨ws0, hn, h2⟩ := h
        injection h2 with h1 h2
        subst h1
        intro p hp
        exact hinv p (mem_eraseRoom hp).1

lemma removeClientFromRoom_single_eq {st : ServerState} {c rid : String} {room : Room}
    (hg : getRoom st.rooms rid = some room) :
    removeClientFromRoom st c false [rid] =
      some ({ st with rooms := setRoom st.rooms rid (room.RemoveClient c) },
            notifyRoomWrites st.clients (room.RemoveClient c) "client_removed",
            true, none) := by
  unfold removeClientFromRoom
  norm_num
  rw [hg]
  simp [notifyUpdateIntheRoom, getRoom_setRoom, hg]

lemma removeClientFromRoom_nil_rooms {st st' : ServerState} {c : String}
    {ws : List Write} {rest : Bool × Option String}
    (h : removeClientFromRoom st c true [] = some (st', ws, rest)) :
    st'.rooms = st.rooms ∨ st'.rooms = (cleanupRooms st.clients c st.rooms).1 := by
  unfold removeClientFromRoom at h
  norm_num at h
  split at h
  · simp only [Option.some.injEq, Prod.mk.injEq] at h
    obtain ⟨rfl, -⟩ := h
    right
    rfl
  · simp only [Option.some.injEq, Prod.mk.injEq] at h
    obtain ⟨rfl, -⟩ := h
    left
    rfl

lemma leave_preserves {st st' : ServerState} {sender : String} {msg : JObj}
    {ws : List Write} (hinv : NoEmptyRooms st)
    (h : handleLeaveRoomMessage st sender msg = some (st', ws)) : NoEmptyRooms st' := by
  unfold handleLeaveRoomMessage at h
  split at h
  · simp only [Option.some.injEq, Prod.mk.injEq] at h
    obtain ⟨rfl, rfl⟩ := h
    exact hinv
  · rename_i roomId
    split at h
    · simp at h
    · rename_i room hg
      split at h
      · -- sender is a member: the room is updated through removeClientFromRoom
        rename_i hmem
        rw [removeClientFromRoom_single_eq hg] at h
        dsimp only at h
        rw [getRoom_setRoom] at h
        simp only [if_pos rfl, hg, Option.map_some', if_true] at h
        split at h
        · rename_i hempty
          simp only [Option.some.injEq, Prod.mk.injEq] at h
          obtain ⟨rfl, rfl⟩ := h
          intro p hp
          have hp' := mem_eraseRoom hp
          rcases mem_setRoom hp'.1 with hq | hq
          · exact absurd (by rw [hq]) hp'.2
          · exact hinv p hq.1
        · rename_i hne
          simp only [Option.some.injEq, Prod.mk.injEq] at h
          obtain ⟨rfl, rfl⟩ := h
          intro p hp
          rcases mem_setRoom hp with hq | hq
          · rw [hq]; exact hne
          · exact hinv p hq.1
      · -- sender not a member
        split at h
        · simp only [Option.some.injEq, Prod.mk.injEq] at h
          obtain ⟨rfl, rfl⟩ := h
          intro p hp
          exact hinv p (mem_eraseRoom hp).1
        · simp only [Option.some.injEq, Prod.mk.injEq] at h
          obtain ⟨rfl, rfl⟩ := h
          exact hinv

lemma disconnect_preserves {st st' : ServerState} {c : String}
    {ws : List Write} {rest : Bool × Option String} (hinv : NoEmptyRooms st)
    (h : removeClientFromRoom st c true [] = some (st', ws, rest)) : NoEmptyRooms st' := by
  rcases removeClientFromRoom_nil_rooms h with hr | hr
  · intro p hp
    rw [hr] at hp
    exact hinv p hp
  · intro p hp
    rw [hr] at hp
    exact cleanupRooms_nonempty st.clients c st.rooms hinv p hp

lemma step_preserves {st st' : ServerState} (hinv : NoEmptyRooms st)
    (h : Step st st') : NoEmptyRooms st' := by
  cases h with
  | register c hc => exact hinv
  | createRoom sender msg genId st' ws h => exact create_preserves hinv h
  | joinRoom sender msg st' ws h => exact join_preserves hinv h
  | leaveRoom sender msg st' ws h => exact leave_preserves hinv h
  | endRoom sender msg st' ws h => exact end_preserves hinv h
  | disconnect c st' ws b e h => exact disconnect_preserves hinv h

lemma reachable_noEmpty {st : ServerState} (h : Reachable st) : NoEmptyRooms st := by
  induction h with
  | init => intro p hp; simp at hp
  | step _ hs ih => exact step_preserves ih hs

/-- A one-client, one-room state: client A registered, room r1 created
by A, so A is in the member slice of r1. -/
def stJoin : ServerState :=
  { clients := ["A"],
    rooms := [("r1", { id := "r1", name := "", clients := ["A"], creator := "A" })] }

/-- A join_room frame naming room r1. -/
def msgRoomR1 : JObj :=
  [("type", JValue.str "join_room"), ("data", JValue.obj [("room", JValue.str "r1")])]

/-- C1: the claim states that a join_room request from a client already
in the member slice of the room is answered with an Already exists
error and leaves membership unchanged.  The code instead tests whether
the ROOM id occurs in the member slice, so the already-member sender A
is appended a second time and a client_added fan-out is sent (twice to
A, once per occurrence of A in the now-duplicated member slice); no
error frame is produced.  This theorem evaluates the handler at that
failing input. -/
theorem C1_join_already_member_divergence :
    handleJoinRoomMessage stJoin "A" msgRoomR1 =
      some ({ clients := ["A"],
              rooms := [("r1", { id := "r1", name := "", clients := ["A", "A"], creator := "A" })] },
            [("A", Out.resp (UpdateMessage "client_added"
               [("clients", JValue.arr [JValue.str "A", JValue.str "A"]),
                ("room", JValue.str "r1"), ("name", JValue.str "")])),
             ("A", Out.resp (UpdateMessage "client_added"
               [("clients", JValue.arr [JValue.str "A", JValue.str "A"]),
                ("room", JValue.str "r1"), ("name", JValue.str "")]))]) := by
  rfl

/-- The duplicated-membership state produced by the C2 trace. -/
def stDup : ServerState :=
  { clients := ["A"],
    rooms := [("r1", { id := "r1", name := "", clients := ["A", "A"], creator := "A" })] }

/-- C2: the claim states that no reachable registry state has a room
whose member slice contains a duplicate client id.  Because join_room
tests the room id instead of the sender id against the member slice,
the trace register A, create_room r1, join_room r1 (sender A in both)
reaches a state whose only room has member slice A, A.  This theorem
exhibits that reachable state and its duplicate. -/
theorem C2_duplicate_members_reachable :
    Reachable stDup ∧
      ∃ r, getRoom stDup.rooms "r1" = some r ∧ ¬ List.Nodup r.clients := by
  constructor
  · have h1 : Reachable { clients := ["A"], rooms := [] } :=
      Reachable.step Reachable.init (Step.register _ "A" (by simp))
    have h2 : Reachable stJoin :=
      Reachable.step h1 (Step.createRoom _ "A" msgRoomR1 "gen" _ _ rfl)
    exact Reachable.step h2 (Step.joinRoom _ "A" msgRoomR1 _ _ rfl)
  · exact ⟨_, rfl, by decide⟩

/-- C5: in every reachable state, every room present in the rooms
registry has a nonempty member slice: the operation that empties a
room (leave_room or the disconnect cleanup) deletes it in the same
step, so no stable state contains a zero-member room. -/
theorem C5_no_empty_room_reachable (st : ServerState) (h : Reachable st)
    (id : String) (r : Room) (hr : getRoom st.rooms id = some r) :
    r.clients ≠ [] :=
  reachable_noEmpty h (id, r) (getRoom_mem hr)

theorem C5_no_empty_room_reachable_witness :
    ({ id := "r1", name := "", clients := ["A"], creator := "A" } : Room).clients ≠ [] := by
  have h1 : Reachable { clients := ["A"], rooms := [] } :=
    Reachable.step Reachable.init (Step.register _ "A" (by simp))
  have h2 : Reachable stJoin :=
    Reachable.step h1 (Step.createRoom _ "A" msgRoomR1 "gen" _ _ rfl)
  exact C5_no_empty_room_reachable stJoin h2 "r1" _ rfl

/-- C3: for a relay frame of one of the four relayed types whose to
field is a string naming a registered client, the single write goes to
that target and carries exactly the input frame with the to key
deleted and a from key set to the sender id. -/
theorem C3_relay_fidelity (st : ServerState) (sender : String) (msg : JObj) (t ty : String)
    (hto : objGet msg "to" = some (JValue.str t))
    (hty : objGet msg "type" = some (JValue.str ty))
    (hreg : t ∈ st.clients)
    (hkind : ty = "offer" ∨ ty = "answer" ∨ ty = "candidate" ∨ ty = "message") :
    relayMessageToTarget st sender msg =
      [(t, Out.raw (objInsert (objErase msg "to") "from" (JValue.str sender)))] := by
  unfold relayMessageToTarget
  rw [hto, hty]
  dsimp only
  rw [if_pos hreg, if_pos hkind]

theorem C3_relay_fidelity_witness :
    relayMessageToTarget { clients := ["B"], rooms := [] } "A"
        [("type", JValue.str "offer"), ("to", JValue.str "B"), ("sdp", JValue.str "x")] =
      [("B", Out.raw (objInsert (objErase
          [("type", JValue.str "offer"), ("to", JValue.str "B"), ("sdp", JValue.str "x")] "to")
          "from" (JValue.str "A")))] :=
  C3_relay_fidelity _ "A" _ "B" "offer" rfl rfl (by simp) (Or.inl rfl)

/-- C4: for an end_room request whose data.room names an existing
room, the room is deleted exactly when the sender is the recorded
creator (membership plays no role); a non-creator sender gets the
unauthorised error frame and the state is unchanged. -/
theorem C4_end_room_creator_only (st : ServerState) (sender : String) (msg : JObj)
    (data : JObj) (roomId : String) (r : Room) (st' : ServerState) (ws : List Write)
    (hdata : objGet msg "data" = some (JValue.obj data))
    (hroom : objGet data "room" = some (JValue.str roomId))
    (hget : getRoom st.rooms roomId = some r)
    (hrun : handleEndRoomMessage st sender msg = some (st', ws)) :
    (getRoom st'.rooms roomId = none ↔ sender = r.creator) ∧
    (sender ≠ r.creator → st' = st ∧
      ws = [(sender, Out.resp (ErrorMessage "unauthorised"
        [("message", JValue.str "You need to be creator of room to delete it.")]))]) := by
  unfold handleEndRoomMessage checkRoomInJSON at hrun
  rw [hdata] at hrun
  dsimp only at hrun
  rw [hroom] at hrun
  dsimp only at hrun
  rw [hget] at hrun
  dsimp only at hrun
  rw [hget] at hrun
  dsimp only at hrun
  by_cases hc : r.creator = sender
  · rw [if_neg (by simp [hc])] at hrun
    simp only [notifyUpdateIntheRoom, hget, Option.map_some', Option.some.injEq,
      Prod.mk.injEq] at hrun
    obtain ⟨hst, -⟩ := hrun
    subst hst
    constructor
    · simp [getRoom_eraseRoom, hc.symm]
    · intro hne
      exact absurd hc.symm hne
  · rw [if_pos hc] at hrun
    simp only [Option.some.injEq, Prod.mk.injEq] at hrun
    obtain ⟨rfl, rfl⟩ := hrun
    constructor
    · constructor
      · intro hnone
        rw [hget] at hnone
        exact Option.noConfusion hnone
      · intro hs
        exact absurd hs.symm hc
    · intro _
      exact ⟨rfl, rfl⟩

/-- A state for the C4 witness: room r1 created by A, with B also
registered; B is not the creator. -/
def stEnd : ServerState :=
  { clients := ["A", "B"],
    rooms := [("r1", { id := "r1", name := "", clients := ["A"], creator := "A" })] }

theorem C4_end_room_creator_only_witness :
    (getRoom stEnd.rooms "r1" = none ↔ "B" = "A") ∧
    ("B" ≠ "A" → stEnd = stEnd ∧
      [(("B" : String), Out.resp (ErrorMessage "unauthorised"
        [("message", JValue.str "You need to be creator of room to delete it.")]))] =
      [(("B" : String), Out.resp (ErrorMessage "unauthorised"
        [("message", JValue.str "You need to be creator of room to delete it.")]))]) :=
  C4_end_room_creator_only stEnd "B" msgRoomR1 [("room", JValue.str "r1")] "r1"
    { id := "r1", name := "", clients := ["A"], creator := "A" } stEnd _ rfl rfl rfl rfl

/-- C6: create_room with a well-formed data object: when the requested
or generated room id already exists, the duplicate-room error frame is
sent and nothing is mutated; otherwise exactly the new room is
inserted, with member slice the sender alone and creator the sender. -/
theorem C6_create_room (st : ServerState) (sender : String) (msg : JObj) (genId : String)
    (data : JObj) (st' : ServerState) (ws : List Write)
    (hdata : objGet msg "data" = some (JValue.obj data))
    (hrun : handleCreateRoomMessage st sender msg genId = (st', ws)) :
    ((getRoom st.rooms (roomIdOfData data genId)).isSome = true →
       st' = st ∧ ws = [(sender, Out.resp (ErrorMessage " duplicate room"
         [("message", JValue.str (roomIdOfData data genId ++ " already exist"))]))]) ∧
    (getRoom st.rooms (roomIdOfData data genId) = none →
       st' = { st with rooms := (roomIdOfData data genId,
                 NewRoom (roomIdOfData data genId) (roomNameOfData data) sender) :: st.rooms } ∧
       (NewRoom (roomIdOfData data genId) (roomNameOfData data) sender).clients = [sender] ∧
       (NewRoom (roomIdOfData data genId) (roomNameOfData data) sender).creator = sender) := by
  unfold handleCreateRoomMessage at hrun
  rw [hdata] at hrun
  dsimp only at hrun
  cases hg : getRoom st.rooms (roomIdOfData data genId) with
  | some r0 =>
    rw [hg] at hrun
    injection hrun with h1 h2
    subst h1
    constructor
    · intro _
      exact ⟨rfl, h2.symm⟩
    · intro habs
      exact Option.noConfusion habs
  | none =>
    rw [hg] at hrun
    injection hrun with h1 h2
    subst h1
    constructor
    · intro habs
      simp at habs
    · intro _
      exact ⟨rfl, rfl, rfl⟩

theorem C6_create_room_witness :
    stJoin = { clients := ["A"], rooms := [("r1", NewRoom "r1" "" "A")] } ∧
    (NewRoom "r1" "" "A").clients = ["A"] ∧ (NewRoom "r1" "" "A").creator = "A" :=
  (C6_create_room { clients := ["A"], rooms := [] } "A" msgRoomR1 "gen"
    [("room", JValue.str "r1")] stJoin
    [("A", Out.resp (InfoMessage "room_created"
      [("clients", JValue.arr [JValue.str "A"]),
       ("room", JValue.str "r1"), ("name", JValue.str "")]))] rfl rfl).2 rfl

/-- A frame carries a single error response to the given client. -/
def errorsToSender (sender : String) (ws : List Write) : Prop :=
  ∃ title d, ws = [(sender, Out.resp (ErrorMessage title d))]

/-- A connect frame with no to field at all. -/
def msgNoTo : JObj :=
  [("type", JValue.str "connect"),
   ("data", JValue.obj [("sdp", JValue.str "s"), ("candidate", JValue.str "c")])]

/-- C7, counterexample: a connect request whose to field is absent is
dropped silently by handleConnectMessage: the handler writes no frame
at all, to the sender or to anyone, contradicting the claim that every
validation failure is answered with an error frame. -/
theorem C7_connect_missing_to_silent :
    objGet msgNoTo "to" = none ∧
    handleConnectMessage { clients := ["A"], rooms := [] } "A" msgNoTo = [] :=
  ⟨rfl, rfl⟩

/-- C7, amended: except for a connect request whose to field is absent
or not a string (which is logged and dropped), every validation
failure is answered with an error frame on the own channel of the
requesting client: a connect with a string to either writes the offer to the
target or an error to the sender; a relay frame of a recognized type
either relays to the target or errors to the sender; and every
checkRoomInJSON failure makes join_room, leave_room and end_room write
exactly that error frame to the sender. -/
theorem C7_validation_failures_reply (st : ServerState) (sender : String) (msg : JObj) :
    (∀ t, objGet msg "to" = some (JValue.str t) →
        (∃ w, handleConnectMessage st sender msg = [(t, w)]) ∨
          errorsToSender sender (handleConnectMessage st sender msg)) ∧
    (∀ ty, objGet msg "type" = some (JValue.str ty) →
        (ty = "offer" ∨ ty = "answer" ∨ ty = "candidate" ∨ ty = "message") →
        (∃ t w, objGet msg "to" = some (JValue.str t) ∧
            relayMessageToTarget st sender msg = [(t, Out.raw w)]) ∨
          errorsToSender sender (relayMessageToTarget st sender msg)) ∧
    (∀ e, checkRoomInJSON st msg = Except.error e →
        e.type = "error" ∧
        handleJoinRoomMessage st sender msg = some (st, [(sender, Out.resp e)]) ∧
        handleLeaveRoomMessage st sender msg = some (st, [(sender, Out.resp e)]) ∧
        handleEndRoomMessage st sender msg = some (st, [(sender, Out.resp e)])) := by
  refine ⟨?_, ?_, ?_⟩
  · intro t hto
    unfold handleConnectMessage
    rw [hto]
    dsimp only
    by_cases hreg : t ∈ st.clients
    · rw [if_pos hreg]
      cases hd : objGet msg "data" with
      | none => exact Or.inr ⟨_, _, rfl⟩
      | some v =>
        cases v with
        | obj data =>
          dsimp only
          cases hs : objGet data "sdp" with
          | none => exact Or.inr ⟨_, _, rfl⟩
          | some sdp =>
            cases hc : objGet data "candidate" with
            | none => exact Or.inr ⟨_, _, rfl⟩
            | some cand => exact Or.inl ⟨_, rfl⟩
        | str s => exact Or.inr ⟨_, _, rfl⟩
        | num n => exact Or.inr ⟨_, _, rfl⟩
        | boolean b => exact Or.inr ⟨_, _, rfl⟩
        | null => exact Or.inr ⟨_, _, rfl⟩
        | arr a => exact Or.inr ⟨_, _, rfl⟩
    · rw [if_neg hreg]
      exact Or.inr ⟨_, _, rfl⟩
  · intro ty hty hkind
    unfold relayMessageToTarget
    cases hto : objGet msg "to" with
    | none => exact Or.inr ⟨_, _, rfl⟩
    | some v =>
      cases v with
      | str t =>
        rw [hty]
        dsimp only
        by_cases hreg : t ∈ st.clients
        · rw [if_pos hreg, if_pos hkind]
          exact Or.inl ⟨t, _, rfl, rfl⟩
        · rw [if_neg hreg]
          exact Or.inr ⟨_, _, rfl⟩
      | obj o => exact Or.inr ⟨_, _, rfl⟩
      | num n => exact Or.inr ⟨_, _, rfl⟩
      | boolean b => exact Or.inr ⟨_, _, rfl⟩
      | null => exact Or.inr ⟨_, _, rfl⟩
      | arr a => exact Or.inr ⟨_, _, rfl⟩
  · intro e he
    refine ⟨?_, ?_, ?_, ?_⟩
    · unfold checkRoomInJSON at he
      split at he
      · split at he
        · split at he
          · exact Except.noConfusion he
          · injection he with h1
            rw [h1.symm]
            rfl
        · injection he with h1
          rw [h1.symm]
          rfl
      · injection he with h1
        rw [h1.symm]
        rfl
    · unfold handleJoinRoomMessage
      rw [he]
    · unfold handleLeaveRoomMessage
      rw [he]
    · unfold handleEndRoomMessage
      rw [he]

theorem C7_validation_failures_reply_witness :
    handleConnectMessage { clients := ["A"], rooms := [] } "A"
      [("type", JValue.str "connect"), ("to", JValue.str "ghost")] ≠ [] := by
  rcases (C7_validation_failures_reply { clients := ["A"], rooms := [] } "A"
      [("type", JValue.str "connect"), ("to", JValue.str "ghost")]).1 "ghost" rfl with
    ⟨w, hw⟩ | ⟨title, d, hw⟩ <;> simp [hw]

/-- A state whose room r1 lists a member B that is no longer in the
clients registry. -/
def stSkip : ServerState :=
  { clients := ["A"],
    rooms := [("r1", { id := "r1", name := "", clients := ["A", "B"], creator := "A" })] }

/-- C8: the claim states that the fan-out logs and returns when the
room id is absent.  The code does log, but lacks the early return: it
then ranges over the nil room pointer, a nil dereference panic
(modelled none).  The second conjunct shows the true half of the
claim: a member id absent from the clients registry is skipped, not an
error, so only A receives the update in stSkip. -/
theorem C8_notify_absent_room_panics :
    notifyUpdateIntheRoom { clients := ["A"], rooms := [] } "ghost" "room_deleted" = none ∧
    notifyUpdateIntheRoom stSkip "r1" "client_added" =
      some [("A", Out.resp (UpdateMessage "client_added"
        [("clients", JValue.arr [JValue.str "A", JValue.str "B"]),
         ("room", JValue.str "r1"), ("name", JValue.str "")]))] :=
  ⟨rfl, rfl⟩

/-- C9: the claim states that removal of an absent id is a safe no-op
on both registries.  The client half holds: removeClient of an
unregistered id leaves the state unchanged.  The room half fails: the
single-room path of removeClientFromRoom looks up the room, logs when
it is absent, but then calls RemoveClient on the nil pointer, a nil
dereference panic (modelled none) rather than a no-op. -/
theorem C9_remove_absent_id :
    removeClient { clients := ["A"], rooms := [] } "B" = { clients := ["A"], rooms := [] } ∧
    removeClientFromRoom { clients := ["A"], rooms := [] } "A" false ["ghost"] = none :=
  ⟨rfl, rfl⟩

/-- C10: a call to removeClientFromRoom with exactly two variadic room
ids skips every room path: no room is looked up or mutated, the only
effect is the optional client deletion, no frame is written, and the
Go return value is true, nil; an error return value occurs only when
more than two room ids are passed. -/
theorem C10_two_room_ids (st : ServerState) (c : String) (b : Bool) (r1 r2 : String) :
    removeClientFromRoom st c b [r1, r2] =
      some ((if b then removeClient st c else st), [], true, none) ∧
    (∀ ids (st' : ServerState) (ws : List Write) (bres : Bool) (e : String),
        removeClientFromRoom st c b ids = some (st', ws, bres, some e) →
        ids.length > 2) := by
  constructor
  · unfold removeClientFromRoom
    norm_num [removeClient]
  · intro ids st' ws bres e h
    by_cases hlen : ids.length > 2
    · exact hlen
    · exfalso
      unfold removeClientFromRoom at h
      rw [if_neg hlen] at h
      rcases ids with _ | ⟨a, _ | ⟨b, _ | ⟨d, rest⟩⟩⟩
      · simp at h
      · dsimp only at h
        cases hg : getRoom st.rooms a with
        | none =>
          rw [hg] at h
          simp at h
        | some room =>
          rw [hg] at h
          simp [notifyUpdateIntheRoom, getRoom_setRoom, hg] at h
      · simp at h
      · apply hlen
        simp only [List.length_cons]
        omega

theorem C10_two_room_ids_witness :
    removeClientFromRoom { clients := ["A"], rooms := [] } "A" true ["r1", "r2"] =
      some ({ clients := [], rooms := [] }, [], true, none) ∧
    (["a", "b", "c"] : List String).length > 2 := by
  constructor
  · rw [(C10_two_room_ids { clients := ["A"], rooms := [] } "A" true "r1" "r2").1]
    rfl
  · exact (C10_two_room_ids { clients := [], rooms := [] } "c" false "x" "y").2
      ["a", "b", "c"] { clients := [], rooms := [] } [] false
      "invalid args passed, second argument should be roomId." rfl

end P2P
